import Mathlib

/-!
Shallow embedding of the core of `go-triparclient` (package `triparclient`):
the response/error decoder (`translateError`, `UnmarshalTriparError`,
`UnmarshalTriparResponse` of `tripar.go` and `Error.UnmarshalJSON` of
`types.go`), the `GetObject` dispatch and the chunked download loop of
`getObjectByChunks`, the `PutObject` producer/consumer upload pipeline with
its `handlePiece` consumer, and the bounded blocking `BufferPool` of
`buffer_pool.go`.

Machine integers (`int`, `int64`) are modelled as `Int`; byte counts that the
code keeps as non-negative counters (`written`, `piece.Read`) as `Nat`; byte
contents as `List Nat`.  The HTTP transport is an oracle: each write request
consumes one entry of a caller-supplied outcome list, and the upload's
deferred best-effort delete carries its own oracle entry.  The remote store
is a single object slot `Option (List Nat)` (the contents at the target
path).
-/

namespace Triparclient

/-- Go `error` values that the embedded code creates, compares or returns.
`wrapped msg inner` models `xerrors.Errorf("msg: %w", inner)`. -/
inductive GoErr : Type where
  | eof
  | unexpectedEOF
  | sourceErr (tag : Nat)
  | errNotFound
  | errAlreadyExists
  | errNotAFile
  | errBadRange
  | triparErr (code : Int) (lmsg smsg : String)
  | jsonUnmarshalErr
  | requestErr (tag : Nat)
  | parseIntErr
  | copyMismatch (n rlen : Int)
  | wrapped (msg : String) (inner : GoErr)
  deriving DecidableEq, Repr

/-- The decoded remote error envelope: struct `Error` of `types.go` with
fields `error_code`, `long_message`, `short_message`. -/
structure TriparError where
  code : Int
  lmsg : String
  smsg : String
  deriving DecidableEq, Repr

/-- Function `translateError` of `tripar.go`: the fixed code table mapping
remote error codes to the package-level sentinel errors. -/
def translateError (e : TriparError) : GoErr :=
  if e.code = 2 then .errNotFound
  else if e.code = 17 then .errAlreadyExists
  else if e.code = 21 then .errNotAFile
  else if e.code = 10004 then .errBadRange
  else .triparErr e.code e.lmsg e.smsg

/-- Shape of a fully-read response body, as far as the decoder inspects it:
empty, malformed JSON, or a JSON object whose three error fields are each
present or absent and whose payload does or does not decode into the typed
success value requested by `UnmarshalTriparResponse`. -/
inductive BodyShape : Type where
  | empty
  | malformed
  | obj (code : Option Int) (lmsg smsg : Option String) (payloadOk : Bool)
  deriving DecidableEq, Repr

/-- Outcome of `json.Unmarshal(body, &Error{})` with the custom
`Error.UnmarshalJSON` of `types.go`: a parse failure on empty or malformed
input, `ERR_NOT_AN_ERROR` when any of the three fields is missing, or the
decoded envelope. -/
inductive ErrParse : Type where
  | parseFail
  | notAnError
  | parsed (e : TriparError)
  deriving DecidableEq, Repr

/-- Method `Error.UnmarshalJSON` of `types.go` composed with `json.Unmarshal`:
empty or malformed bodies fail to parse; a JSON object yields
`ERR_NOT_AN_ERROR` unless `error_code`, `long_message` and `short_message`
are all present. -/
def unmarshalErrorStruct : BodyShape → ErrParse
  | .empty => .parseFail
  | .malformed => .parseFail
  | .obj c l s _ =>
    match c, l, s with
    | some c, some l, some s => .parsed ⟨c, l, s⟩
    | _, _, _ => .notAnError

/-- Modelled from the spec: function `UnmarshalError` is called by
`UnmarshalTriparError` and `UnmarshalTriparResponse` in `tripar.go` but its
definition is not under src.  Per the spec's decoder contract it decodes a raw
body to "no error" (fields absent), a structured remote error (fields
present), or a decode failure (malformed JSON); the repository's own tests
confirm that an empty body given to it fails with a JSON unmarshal error. -/
def UnmarshalError (b : BodyShape) : Except GoErr (Option TriparError) :=
  match unmarshalErrorStruct b with
  | .parseFail => .error .jsonUnmarshalErr
  | .notAnError => .ok none
  | .parsed e => .ok (some e)

/-- Function `UnmarshalTriparError` of `tripar.go` on a fully-read body:
`none` means the nil error.  The empty body is short-circuited before
`UnmarshalError` runs. -/
def UnmarshalTriparError (b : BodyShape) : Option GoErr :=
  if b = .empty then none
  else
    match UnmarshalError b with
    | .error e => some (.wrapped "failed to json unmarshal error response" e)
    | .ok (some perr) =>
      some (.wrapped ("tripar error: " ++ perr.lmsg) (translateError perr))
    | .ok none => none

/-- Function `UnmarshalTriparResponse` of `tripar.go` on a fully-read body:
no empty-body short-circuit; after the error check, `json.Unmarshal` of the
payload into the typed success value (its success is the `payloadOk` flag of
the body shape). -/
def UnmarshalTriparResponse (b : BodyShape) : Option GoErr :=
  match UnmarshalError b with
  | .error e => some (.wrapped "failed to json unmarshal error response" e)
  | .ok (some perr) =>
    some (.wrapped ("tripar error: " ++ perr.lmsg) (translateError perr))
  | .ok none =>
    match b with
    | .obj _ _ _ payloadOk =>
      if payloadOk then none
      else some (.wrapped "failed to json unmarshal response" .jsonUnmarshalErr)
    | _ => some (.wrapped "failed to json unmarshal response" .jsonUnmarshalErr)

/-- Struct `ioutils.FileSpan`: an inclusive byte range `[Start, End]`. -/
structure FileSpan where
  Start : Int
  End : Int
  deriving DecidableEq, Repr

/-- The two code paths of `GetObject` in `tripar.go`. -/
inductive GetPath : Type where
  | complete
  | chunks
  deriving DecidableEq, Repr

/-- Dispatch condition of `GetObject` (`tripar.go` line 212):
`span == nil || span.End-span.Start <= tp.getChunkSize` selects
`getObjectComplete`, otherwise `getObjectByChunks`. -/
def getObjectDispatch (getChunkSize : Int) (span : Option FileSpan) : GetPath :=
  match span with
  | none => .complete
  | some s => if s.End - s.Start ≤ getChunkSize then .complete else .chunks

/-- A ranged GET issued against the object: the `Range: bytes=Start-End`
header values. -/
structure GetReq where
  Start : Int
  End : Int
  deriving DecidableEq, Repr

/-- One HTTP response consumed by `nextChunk` inside `getObjectByChunks`:
whether the request itself succeeded, the declared `Content-Length` header
(`none` when it does not parse as an integer), and the number of bytes the
body actually yields to `io.Copy`. -/
structure ChunkResponse where
  ok : Bool
  contentLength : Option Int
  bodyLen : Int
  deriving DecidableEq, Repr

/-- Terminal state of the chunk-fetching goroutine of `getObjectByChunks`:
pipe closed cleanly, pipe closed with an error, or the response oracle ran
out while `left > 0` (the loop would keep issuing requests). -/
inductive LoopOutcome : Type where
  | closed
  | failed (e : GoErr)
  | outOfResponses
  deriving DecidableEq, Repr

/-- The `for left > 0 { nextChunk() }` goroutine of `getObjectByChunks`
(`tripar.go` lines 289-331), driven by an oracle of responses, one per
issued request.  Each iteration takes `len = min(left, chunkSize)`, issues
the ranged GET `[start, start+len-1]`, parses the declared content length
`rlen`, advances `left -= rlen; start += rlen`, copies the body and fails
if the copied count differs from `rlen`.  Returns the issued requests and
the terminal outcome. -/
def chunksLoop (chunkSize : Int) : Int → Int → List ChunkResponse → List GetReq × LoopOutcome
  | left, _, [] => if left > 0 then ([], .outOfResponses) else ([], .closed)
  | left, start, r :: rs =>
    if left > 0 then
      let len := if left > chunkSize then chunkSize else left
      let req : GetReq := ⟨start, start + len - 1⟩
      if r.ok then
        match r.contentLength with
        | none => ([req], .failed .parseIntErr)
        | some rlen =>
          if r.bodyLen = rlen then
            let rest := chunksLoop chunkSize (left - rlen) (start + rlen) rs
            (req :: rest.1, rest.2)
          else ([req], .failed (.copyMismatch r.bodyLen rlen))
      else ([req], .failed (.wrapped "getObjectByChunks getObjectResponse error" (.requestErr 0)))
    else ([], .closed)

/-- Result of a `GetObject` call: every ranged GET the call issues over its
lifetime (`none` range means the whole-object GET without a `Range` header;
chunk requests are issued lazily by the background goroutine but belong to
the call), and the error `GetObject` itself returns. -/
structure GetOutcome where
  reqs : List (Option GetReq)
  err : Option GoErr
  deriving DecidableEq, Repr

/-- Function `GetObject` of `tripar.go` after the initial `Stat` reported
`size`: dispatch between `getObjectComplete` (one direct GET, with a `Range`
header exactly when a span was given) and `getObjectByChunks` (the
validation of lines 285-287 followed by the chunk loop).  The direct GET's
response handling is not under test here and is modelled as succeeding. -/
def GetObjectModel (getChunkSize size : Int) (span : Option FileSpan)
    (responses : List ChunkResponse) : GetOutcome :=
  match getObjectDispatch getChunkSize span with
  | .complete => ⟨[span.map fun s => ⟨s.Start, s.End⟩], none⟩
  | .chunks =>
    let left := match span with
      | none => size
      | some s => s.End - s.Start + 1
    let start := match span with
      | none => 0
      | some s => s.Start
    if left - start > size ∨ start < 0 ∨ left ≤ 0 then ⟨[], some .errBadRange⟩
    else
      let run := chunksLoop getChunkSize left start responses
      ⟨run.1.map some, none⟩

/-- One producer iteration's result: struct `PutPiece` of `tripar.go`, with
`Buffer[:Read]` carried as the byte list `data` (so `piece.Read` is
`data.length`) and `Err` the terminal condition returned by
`ioutils.ReadFillBuffer` alongside the data. -/
structure Fill where
  data : List Nat
  err : Option GoErr
  deriving DecidableEq, Repr

/-- The pieces the producer goroutine of `PutObject` sends into the pipe, at
most: it loops filling buffers and breaks after the first piece whose `Err`
is non-nil (`tripar.go` lines 382-406). -/
def producedPieces : List Fill → List Fill
  | [] => []
  | f :: fs => if f.err = none then f :: producedPieces fs else [f]

/-- Modelled from the spec: `ioutils.ReadFillBuffer` (external package
`go-ioutils`, not under src) fills each pooled buffer as full as possible
from the source, returning end-of-stream together with the trailing data
when the source is exhausted mid-fill.  A source of known contents with
buffer size `b` therefore yields full buffers while more than `b` bytes
remain, then one final piece carrying the remainder and `io.EOF`. -/
def sourceFills (data : List Nat) (b : Nat) : List Fill :=
  if b = 0 ∨ data.length ≤ b then [⟨data, some .eof⟩]
  else ⟨data.take b, none⟩ :: sourceFills (data.drop b) b
termination_by data.length
decreasing_by
  simp only [List.length_drop]
  omega

/-- One write request issued by `handlePiece`: the method (`"PUT"` for the
first piece, `"POST"` for appends), the `Range: bytes=a-b` header values when
present, the `ReqContentLength` and the request body. -/
structure WriteReq where
  method : String
  range : Option (Int × Int)
  len : Nat
  body : List Nat
  deriving DecidableEq, Repr

/-- Result of the `handlePiece` consumer loop of `PutObject` (lines 417-460):
the write requests issued in order, the final `written` counter, the object
slot after the issued requests, the error that ended the loop (`none` when
the pipe closed cleanly), and the number of pieces the consumer received
from the pipe. -/
structure ConsumerResult where
  reqs : List WriteReq
  written : Nat
  store : Option (List Nat)
  err : Option GoErr
  consumed : Nat
  deriving DecidableEq, Repr

/-- The consumer loop of `PutObject` folded over the pieces, with `outcomes`
the transport oracle (one entry per issued request; `none` = the request and
its response check succeed, `some e` = `tp.request`/`UnmarshalTriparError`
fails with `e`; the oracle is taken as success when exhausted).  Per
`handlePiece`: a piece whose `Err` is neither nil nor `io.EOF` returns that
error with no request; otherwise a request is issued — a full-replace `PUT`
when `written == 0`, else a `POST` with `Range: bytes=written-(written+read-1)`
— and on success `written += read` and the store is replaced (PUT) or
appended to (POST); a failed request leaves the store as it was. -/
def runConsumer : List Fill → List (Option GoErr) → Nat → Option (List Nat) → ConsumerResult
  | [], _, written, store => ⟨[], written, store, none, 0⟩
  | p :: ps, outcomes, written, store =>
    if p.err ≠ none ∧ p.err ≠ some .eof then
      ⟨[], written, store, p.err, 1⟩
    else
      let req : WriteReq :=
        if written = 0 then ⟨"PUT", none, p.data.length, p.data⟩
        else ⟨"POST", some ((written : Int), (written : Int) + p.data.length - 1),
              p.data.length, p.data⟩
      match outcomes.headD none with
      | some e => ⟨[req], written, store, some (.wrapped "put object request error" e), 1⟩
      | none =>
        let store' := if written = 0 then some p.data
          else some (store.getD [] ++ p.data)
        let rest := runConsumer ps outcomes.tail (written + p.data.length) store'
        ⟨req :: rest.reqs, rest.written, rest.store, rest.err, rest.consumed + 1⟩

/-- Result of a whole `PutObject` call: the issued write requests, the value
returned, the object slot afterwards, whether the deferred best-effort
`DeleteObject` was issued, and the buffer-pool traffic split by code site —
`gets` at the producer's `bufferPool.Get()`, `consumerPuts` at the
`defer tp.bufferPool.Put(piece.Buffer)` of `handlePiece`, `producerPuts` at
the producer's `pipeReaderDone` branch, `drainPuts` at the deferred
pipe-drain loop. -/
structure PutResult where
  reqs : List WriteReq
  result : Option GoErr
  store : Option (List Nat)
  deleted : Bool
  gets : Nat
  consumerPuts : Nat
  producerPuts : Nat
  drainPuts : Nat
  deriving DecidableEq, Repr

/-- Function `PutObject` of `tripar.go` (lines 361-461) as a whole, over a
source described by its `ReadFillBuffer` results, a transport oracle, and
the object slot before the call.  Scheduling nondeterminism is explicit:
after the consumer stops, the producer may have produced up to `extra` more
pieces before observing `pipeReaderDone`, of which up to `drainSplit` sat in
the pipe and are released by the deferred drain while the rest are released
by the producer itself.  On any error the deferred
`_ = tp.DeleteObject(ctx, path)` is issued, its own outcome discarded by the
code; that DELETE is itself a network request that can fail, so it carries
its own oracle entry `deleteOutcome`: when it succeeds (`none`) the object
is removed, and when it fails the store is left as the writes left it. -/
def PutObjectModel (fills : List Fill) (outcomes : List (Option GoErr))
    (deleteOutcome : Option GoErr) (store0 : Option (List Nat))
    (extra drainSplit : Nat) : PutResult :=
  let pieces := producedPieces fills
  let c := runConsumer pieces outcomes 0 store0
  let leftover := pieces.length - c.consumed
  let e := min extra leftover
  let d := min drainSplit e
  match c.err with
  | none =>
    ⟨c.reqs, none, c.store, false, c.consumed + e, c.consumed, e - d, d⟩
  | some err =>
    ⟨c.reqs, some err, if deleteOutcome = none then none else c.store, true,
      c.consumed + e, c.consumed, e - d, d⟩

/-- Bytes read from the source up to and including its terminal fill. -/
def sourceBytes (fills : List Fill) : List Nat :=
  ((producedPieces fills).map Fill.data).flatten

/-- Offset at which a write request addresses the object: `0` for the
create-or-replace `PUT`, the `Range` start for an append `POST`. -/
def WriteReq.offset (r : WriteReq) : Int :=
  match r.range with
  | none => 0
  | some ab => ab.1

/-- Checks that a request list is exactly the chain `handlePiece` promises
starting from a `written` counter of `w`: a first-piece `PUT` carries no
range, every other request is a `POST` whose range is
`bytes=written-(written+read-1)`, and `written` advances by each request's
length. -/
def chainedFrom : Nat → List WriteReq → Bool
  | _, [] => true
  | w, r :: rs =>
    (if w = 0 then r.method = "PUT" ∧ r.range = none
      else r.method = "POST" ∧ r.range = some ((w : Int), (w : Int) + r.len - 1) : Bool)
    && r.len = r.body.length && chainedFrom (w + r.len) rs

/-- Checks that consecutive write requests address strictly increasing
byte offsets. -/
def strictlyIncreasing : List WriteReq → Bool
  | [] => true
  | [_] => true
  | r :: s :: rest => r.offset < s.offset && strictlyIncreasing (s :: rest)

/-- State of a `BufferPool` of `buffer_pool.go`: the fixed `cap`, the count
`size` of buffers ever allocated, and the free list `buffers` (buffers are
fungible, so the free list is its length's worth of units). -/
structure BufferPool where
  cap : Nat
  size : Nat
  buffers : List Unit
  deriving DecidableEq, Repr

/-- Constructor `NewBufferPool`: no buffers allocated, empty free list. -/
def NewBufferPool (capacity : Nat) : BufferPool :=
  ⟨capacity, 0, []⟩

/-- Method `Get` of `BufferPool` as one step under the pool lock: pop the
free list if non-empty; otherwise allocate a new buffer and increment `size`
if `size < cap`; otherwise the caller blocks on `cond.Wait` (`none`). -/
def BufferPool.getStep (bp : BufferPool) : Option BufferPool :=
  match bp.buffers with
  | _ :: rest => some { bp with buffers := rest }
  | [] => if bp.size < bp.cap then some { bp with size := bp.size + 1 } else none

/-- Method `Put` of `BufferPool`: push the buffer onto the free list and
signal one waiter; total, and never touches `size`. -/
def BufferPool.put (bp : BufferPool) : BufferPool :=
  { bp with buffers := () :: bp.buffers }

/-- Pool states reachable from a fresh pool through completed `Get` and
`Put` calls. -/
inductive BufferPool.Reachable : BufferPool → Prop where
  | init (capacity : Nat) : Reachable (NewBufferPool capacity)
  | get {bp bp' : BufferPool} : Reachable bp → bp.getStep = some bp' → Reachable bp'
  | put {bp : BufferPool} : Reachable bp → Reachable bp.put

/-- A response that succeeds, declares a parseable `Content-Length`, and
whose body yields exactly the declared number of bytes. -/
def goodResponse (r : ChunkResponse) : Prop :=
  r.ok = true ∧ r.contentLength = some r.bodyLen

instance (r : ChunkResponse) : Decidable (goodResponse r) := by
  unfold goodResponse
  infer_instance

/-- The chunk plan exactly as the spec words it: while `remaining > 0`, one
sub-span `[start, start + min(remaining, chunk size) - 1]` per iteration,
with `start` advanced and `remaining` decremented by the length the server
declared for that chunk. -/
def specChunkPlan (cs : Int) : List Int → Int → Int → List GetReq
  | [], _, _ => []
  | rlen :: rest, start, remaining =>
    if 0 < remaining then
      ⟨start, start + min remaining cs - 1⟩ :: specChunkPlan cs rest (start + rlen) (remaining - rlen)
    else []

/-! ## Theorems -/

/-- C7: for every buffer pool created with capacity C, the count of allocated
buffers never exceeds C; `Get` allocates a new buffer only when the free list
is empty and fewer than C buffers have been allocated; a `Get` arriving when
`size = cap` and the free list is empty blocks (`cond.Wait`); and `Put` — a
total function that never fails — pushes the buffer back onto the free list,
never decreases the allocated count, and enables a blocked `Get` to complete
(the signalled waiter finds the free list non-empty). -/
theorem bufferPool_capacity_and_blocking (bp : BufferPool) (h : bp.Reachable) :
    bp.size ≤ bp.cap ∧
    (bp.buffers = [] → bp.size = bp.cap → bp.getStep = none) ∧
    (∀ bp', bp.getStep = some bp' → bp'.size = bp.size + 1 →
      bp.buffers = [] ∧ bp.size < bp.cap) ∧
    bp.put.size = bp.size ∧
    bp.put.buffers = () :: bp.buffers ∧
    bp.put.getStep = some { bp with buffers := bp.buffers } := by
  refine ⟨?_, ?_, ?_, rfl, rfl, rfl⟩
  · induction h with
    | init capacity => exact Nat.zero_le _
    | @get p p' _ hstep ih =>
      unfold BufferPool.getStep at hstep
      cases hb : p.buffers with
      | cons a rest =>
        rw [hb] at hstep
        cases hstep
        exact ih
      | nil =>
        rw [hb] at hstep
        by_cases hc : p.size < p.cap
        · rw [if_pos hc] at hstep
          cases hstep
          exact hc
        · rw [if_neg hc] at hstep
          cases hstep
    | @put p _ ih => exact ih
  · intro hb hs
    unfold BufferPool.getStep
    rw [hb, hs, if_neg (Nat.lt_irrefl _)]
  · intro bp' hstep hinc
    unfold BufferPool.getStep at hstep
    cases hb : bp.buffers with
    | cons a rest =>
      rw [hb] at hstep
      cases hstep
      simp at hinc
    | nil =>
      rw [hb] at hstep
      by_cases hc : bp.size < bp.cap
      · exact ⟨rfl, hc⟩
      · rw [if_neg hc] at hstep
        cases hstep

/-- Witness for C7 at the concrete reachable pool `NewBufferPool 2`. -/
theorem bufferPool_capacity_and_blocking_witness :
    (NewBufferPool 2).size ≤ (NewBufferPool 2).cap ∧
    ((NewBufferPool 2).buffers = [] → (NewBufferPool 2).size = (NewBufferPool 2).cap →
      (NewBufferPool 2).getStep = none) ∧
    (∀ bp', (NewBufferPool 2).getStep = some bp' → bp'.size = (NewBufferPool 2).size + 1 →
      (NewBufferPool 2).buffers = [] ∧ (NewBufferPool 2).size < (NewBufferPool 2).cap) ∧
    (NewBufferPool 2).put.size = (NewBufferPool 2).size ∧
    (NewBufferPool 2).put.buffers = () :: (NewBufferPool 2).buffers ∧
    (NewBufferPool 2).put.getStep = some { NewBufferPool 2 with buffers := (NewBufferPool 2).buffers } :=
  bufferPool_capacity_and_blocking (NewBufferPool 2) (BufferPool.Reachable.init 2)

/-- C9: on every exit path of `PutObject` — success, error, or the producer
detecting a terminated consumer — the number of `bufferPool.Get` calls equals
the number of `bufferPool.Put` calls summed over the three release sites
(consumer `defer`, producer shutdown branch, deferred pipe drain), for every
source, transport oracle and schedule. -/
theorem putObject_buffer_accounting (fills : List Fill) (outcomes : List (Option GoErr))
    (deleteOutcome : Option GoErr) (store0 : Option (List Nat)) (extra drainSplit : Nat) :
    (PutObjectModel fills outcomes deleteOutcome store0 extra drainSplit).gets =
      (PutObjectModel fills outcomes deleteOutcome store0 extra drainSplit).consumerPuts +
      (PutObjectModel fills outcomes deleteOutcome store0 extra drainSplit).producerPuts +
      (PutObjectModel fills outcomes deleteOutcome store0 extra drainSplit).drainPuts := by
  unfold PutObjectModel
  cases hcerr : (runConsumer (producedPieces fills) outcomes 0 store0).err <;>
    simp only [hcerr] <;> omega

/-- C10: for the empty source stream (whose single fill yields zero bytes and
end-of-stream) and a working transport, `PutObject` issues exactly one write
request — a zero-length `PUT` with no `Range` header — returns success, and
leaves an empty object at the path. -/
theorem putObject_empty_source :
    PutObjectModel (sourceFills [] 1048576) [] none none 0 0 =
      ⟨[⟨"PUT", none, 0, []⟩], none, some [], false, 1, 1, 0, 0⟩ := by
  rw [show sourceFills [] 1048576 = [⟨[], some .eof⟩] from by rw [sourceFills]; simp]
  decide

/-- C2 counterexample: the span `[-5, -1]` has `start < 0`, so the claim
says `GetObject` rejects it with the bad-range error before issuing any
ranged request; but with chunk size 10 its dispatch length sends it down the
direct path, which performs no validation — the call issues the ranged GET
`bytes=-5--1` and returns no bad-range error. -/
theorem getObject_validation_counterexample :
    (-5 : Int) < 0 ∧
    GetObjectModel 10 5 (some ⟨-5, -1⟩) [] = ⟨[some ⟨-5, -1⟩], none⟩ := by
  constructor
  · decide
  · rfl

/-- C2 amended: only spans dispatched to the chunked path (`span ≠ nil` and
`End - Start > chunk size`) are validated, and the rejection condition is the
code's `(End - Start + 1) - Start > size`, `Start < 0`, or
`End - Start + 1 ≤ 0` — not `length > size`, and not `End ≥ size`; such a
rejected span yields `ErrBadRange` with no ranged request beyond the initial
stat.  Spans on the direct path undergo no local validation. -/
theorem getObject_chunks_validation (cs size : Int) (s : FileSpan)
    (rs : List ChunkResponse) (hdisp : s.End - s.Start > cs) :
    GetObjectModel cs size (some s) rs = ⟨[], some .errBadRange⟩ ↔
      (s.End - s.Start + 1) - s.Start > size ∨ s.Start < 0 ∨ s.End - s.Start + 1 ≤ 0 := by
  have hd : getObjectDispatch cs (some s) = .chunks := by
    simp only [getObjectDispatch]
    rw [if_neg (by omega)]
  unfold GetObjectModel
  rw [hd]
  dsimp only
  by_cases hv : s.End - s.Start + 1 - s.Start > size ∨ s.Start < 0 ∨ s.End - s.Start + 1 ≤ 0
  · rw [if_pos hv]
    simp [hv]
  · rw [if_neg hv]
    constructor
    · intro hEq
      exact absurd (congrArg GetOutcome.err hEq) (by simp)
    · intro h
      exact absurd h hv

/-- Witness for C2 (amended) at chunk size 2, object size 5, span `[1, 10]`:
the repository's own test input, rejected because `(10 - 1 + 1) - 1 > 5`. -/
theorem getObject_chunks_validation_witness :
    GetObjectModel 2 5 (some ⟨1, 10⟩) [] = ⟨[], some .errBadRange⟩ ↔
      ((10 : Int) - 1 + 1) - 1 > 5 ∨ (1 : Int) < 0 ∨ (10 : Int) - 1 + 1 ≤ 0 :=
  getObject_chunks_validation 2 5 ⟨1, 10⟩ [] (by decide)

/-- C3 counterexample: a span of length `chunk size + 1` (here `[0, 4]` with
chunk size 4, length 5) exceeds one chunk, yet the code's comparison
`End - Start <= chunkSize` sends it down the single direct-request path; and
a nil span is always served by one whole-object request with no `Range`
header, even when the object (here 100 bytes) is larger than one chunk. -/
theorem getObject_dispatch_counterexample :
    ((4 : Int) - 0 + 1 > 4 ∧ getObjectDispatch 4 (some ⟨0, 4⟩) = GetPath.complete) ∧
    ((100 : Int) > 4 ∧ GetObjectModel 4 100 none [] = ⟨[none], none⟩) := by
  refine ⟨⟨by decide, rfl⟩, ⟨by decide, rfl⟩⟩

/-- C3 amended: `GetObject` dispatches to the chunked pipeline exactly when a
span is given and `End - Start > chunk size` (that is, when the span length
exceeds chunk size + 1); a nil span never chunks regardless of object size;
and every dispatch to the direct path issues exactly one GET, carrying the
span's range header when a span was given and none otherwise. -/
theorem getObject_dispatch_rule (cs size : Int) (span : Option FileSpan)
    (rs : List ChunkResponse) :
    (getObjectDispatch cs span = .chunks ↔ ∃ s, span = some s ∧ s.End - s.Start > cs) ∧
    (getObjectDispatch cs span = .complete →
      (GetObjectModel cs size span rs).reqs = [span.map fun s => (⟨s.Start, s.End⟩ : GetReq)]) := by
  constructor
  · cases span with
    | none => simp [getObjectDispatch]
    | some s =>
      simp only [getObjectDispatch]
      by_cases hc : s.End - s.Start ≤ cs
      · rw [if_pos hc]
        constructor
        · intro h
          exact GetPath.noConfusion h
        · rintro ⟨s', hs', hgt⟩
          cases hs'
          omega
      · rw [if_neg hc]
        exact ⟨fun _ => ⟨s, rfl, by omega⟩, fun _ => rfl⟩
  · intro hd
    unfold GetObjectModel
    rw [hd]

/-- Witness for C3 (amended) at chunk size 4, size 100, span `[0, 9]`. -/
theorem getObject_dispatch_rule_witness :
    (getObjectDispatch 4 (some ⟨0, 9⟩) = .chunks ↔
      ∃ s : FileSpan, some ⟨0, 9⟩ = some s ∧ s.End - s.Start > 4) ∧
    (GetObjectModel 4 100 (some ⟨0, 4⟩) []).reqs = [some ⟨0, 4⟩] :=
  ⟨(getObject_dispatch_rule 4 100 (some ⟨0, 9⟩) []).1,
    (getObject_dispatch_rule 4 100 (some ⟨0, 4⟩) []).2 (by decide)⟩

/-- C8 counterexample: the same fully-read body — the empty body — yields
different error outcomes in the two call shapes: `UnmarshalTriparError`
short-circuits to no error, while `UnmarshalTriparResponse` has no such
short-circuit and reports a JSON decode failure (as the repository's own
tests expect). -/
theorem decoder_empty_body_counterexample :
    UnmarshalTriparError BodyShape.empty = none ∧
    UnmarshalTriparResponse BodyShape.empty =
      some (.wrapped "failed to json unmarshal error response" .jsonUnmarshalErr) :=
  ⟨rfl, rfl⟩

/-- C8 amended: the error-only check returns no error on an empty body or a
JSON object missing any of the three error fields, translates present error
fields through the fixed code table (2 → not-found, 17 → already-exists,
21 → not-a-file, 10004 → bad-range, any other code → a generic error keeping
the original message), and reports a decode failure on malformed JSON; the
payload-deserializing check applies the same detection logic to every
non-empty body — any detection error is reported identically, and a clean
detection can add only a payload decode failure — but the two shapes disagree
on the empty body, where the error-only check returns no error and the
payload check returns a decode failure. -/
theorem decoder_taxonomy_and_shapes :
    (∀ c l s p, UnmarshalTriparError (.obj (some c) (some l) (some s) p) =
        some (.wrapped ("tripar error: " ++ l) (translateError ⟨c, l, s⟩)) ∧
      UnmarshalTriparResponse (.obj (some c) (some l) (some s) p) =
        some (.wrapped ("tripar error: " ++ l) (translateError ⟨c, l, s⟩))) ∧
    (∀ l s, translateError ⟨2, l, s⟩ = .errNotFound ∧
      translateError ⟨17, l, s⟩ = .errAlreadyExists ∧
      translateError ⟨21, l, s⟩ = .errNotAFile ∧
      translateError ⟨10004, l, s⟩ = .errBadRange) ∧
    (∀ c l s, c ≠ 2 → c ≠ 17 → c ≠ 21 → c ≠ 10004 →
      translateError ⟨c, l, s⟩ = .triparErr c l s) ∧
    (∀ c l s p, (c = none ∨ l = none ∨ s = none) →
      UnmarshalTriparError (.obj c l s p) = none) ∧
    (UnmarshalTriparError .empty = none) ∧
    (UnmarshalTriparError .malformed =
      some (.wrapped "failed to json unmarshal error response" .jsonUnmarshalErr)) ∧
    (∀ b, b ≠ .empty → ∀ e, UnmarshalTriparError b = some e →
      UnmarshalTriparResponse b = some e) ∧
    (∀ b, b ≠ .empty → UnmarshalTriparError b = none →
      UnmarshalTriparResponse b = none ∨
      UnmarshalTriparResponse b =
        some (.wrapped "failed to json unmarshal response" .jsonUnmarshalErr)) ∧
    (UnmarshalTriparResponse .empty =
      some (.wrapped "failed to json unmarshal error response" .jsonUnmarshalErr)) := by
  refine ⟨?_, ?_, ?_, ?_, rfl, rfl, ?_, ?_, rfl⟩
  · intro c l s p
    exact ⟨rfl, rfl⟩
  · intro l s
    exact ⟨rfl, rfl, rfl, rfl⟩
  · intro c l s h2 h17 h21 h10004
    simp [translateError, h2, h17, h21, h10004]
  · intro c l s p habs
    cases c with
    | none => cases l <;> cases s <;> rfl
    | some cv =>
      cases l with
      | none => cases s <;> rfl
      | some lv =>
        cases s with
        | none => rfl
        | some sv => rcases habs with h | h | h <;> exact Option.noConfusion h
  · intro b hb e hsome
    cases b with
    | empty => exact absurd rfl hb
    | malformed =>
      simp only [UnmarshalTriparError, UnmarshalError, unmarshalErrorStruct,
        if_neg (by simp : ¬(BodyShape.malformed = BodyShape.empty))] at hsome
      rw [← hsome]
      rfl
    | obj c l s p =>
      simp only [UnmarshalTriparError,
        if_neg (by simp : ¬(BodyShape.obj c l s p = BodyShape.empty))] at hsome
      cases c <;> cases l <;> cases s <;>
        simp only [UnmarshalError, unmarshalErrorStruct] at hsome ⊢ <;>
        first
          | exact Option.noConfusion hsome
          | (rw [← hsome]; rfl)
  · intro b hb hnone
    cases b with
    | empty => exact absurd rfl hb
    | malformed =>
      simp only [UnmarshalTriparError, UnmarshalError, unmarshalErrorStruct,
        if_neg (by simp : ¬(BodyShape.malformed = BodyShape.empty))] at hnone
      exact Option.noConfusion hnone
    | obj c l s p =>
      simp only [UnmarshalTriparError,
        if_neg (by simp : ¬(BodyShape.obj c l s p = BodyShape.empty))] at hnone
      cases c <;> cases l <;> cases s <;>
        simp only [UnmarshalError, unmarshalErrorStruct] at hnone ⊢ <;>
        first
          | exact Option.noConfusion hnone
          | (cases p <;> simp [UnmarshalTriparResponse, UnmarshalError, unmarshalErrorStruct])

/-- Witness for C8 (amended) at concrete inputs: the other-code branch of the
table at code 5, and the agreement of the two shapes on a concrete non-empty
body carrying error code 2. -/
theorem decoder_taxonomy_and_shapes_witness :
    translateError ⟨5, "L", "S"⟩ = .triparErr 5 "L" "S" ∧
    UnmarshalTriparResponse (.obj (some 2) (some "L") (some "S") true) =
      some (.wrapped ("tripar error: " ++ "L") (translateError ⟨2, "L", "S"⟩)) :=
  ⟨decoder_taxonomy_and_shapes.2.2.1 5 "L" "S" (by decide) (by decide) (by decide) (by decide),
    decoder_taxonomy_and_shapes.2.2.2.2.2.2.1 (.obj (some 2) (some "L") (some "S") true)
      (by simp) _ rfl⟩

theorem producedPieces_ne_nil (fills : List Fill) (h : fills ≠ []) :
    producedPieces fills ≠ [] := by
  cases fills with
  | nil => exact absurd rfl h
  | cons f fs =>
    simp only [producedPieces]
    split <;> simp

theorem runConsumer_store_of_success (ps : List Fill) :
    ∀ (outcomes : List (Option GoErr)) (acc : List Nat) (store : Option (List Nat)),
    (acc = [] ∨ store = some acc) →
    (runConsumer ps outcomes acc.length store).err = none →
    (ps = [] ∧ (runConsumer ps outcomes acc.length store).store = store) ∨
    (runConsumer ps outcomes acc.length store).store =
      some (acc ++ (ps.map Fill.data).flatten) := by
  induction ps with
  | nil =>
    intro outcomes acc store _ _
    exact Or.inl ⟨rfl, rfl⟩
  | cons p ps ih =>
    intro outcomes acc store hinv hok
    simp only [runConsumer] at hok ⊢
    by_cases hbad : p.err ≠ none ∧ p.err ≠ some .eof
    · rw [if_pos hbad] at hok
      exact absurd hok hbad.1
    · rw [if_neg hbad] at hok ⊢
      cases ho : outcomes.headD none with
      | some e =>
        rw [ho] at hok
        exact Option.noConfusion hok
      | none =>
        rw [ho] at hok
        have hstore' :
            (if acc.length = 0 then some p.data else some (store.getD [] ++ p.data)) =
              some (acc ++ p.data) := by
          rcases hinv with hacc | hsome
          · subst hacc
            simp
          · by_cases hlen : acc.length = 0
            · have : acc = [] := List.length_eq_zero.mp hlen
              subst this
              simp [hsome]
            · rw [if_neg hlen, hsome]
              rfl
        rw [hstore'] at hok ⊢
        have hlen : acc.length + p.data.length = (acc ++ p.data).length := by
          simp
        rw [hlen] at hok ⊢
        rcases ih outcomes.tail (acc ++ p.data) (some (acc ++ p.data)) (Or.inr rfl) hok with
          ⟨hps, hst⟩ | hst
        · subst hps
          right
          rw [hst]
          simp
        · right
          rw [hst]
          simp

theorem putObjectModel_err_none (fills : List Fill) (outcomes : List (Option GoErr))
    (deleteOutcome : Option GoErr) (store0 : Option (List Nat)) (extra drainSplit : Nat)
    (h : (runConsumer (producedPieces fills) outcomes 0 store0).err = none) :
    (PutObjectModel fills outcomes deleteOutcome store0 extra drainSplit).result = none ∧
    (PutObjectModel fills outcomes deleteOutcome store0 extra drainSplit).store =
      (runConsumer (producedPieces fills) outcomes 0 store0).store ∧
    (PutObjectModel fills outcomes deleteOutcome store0 extra drainSplit).deleted = false ∧
    (PutObjectModel fills outcomes deleteOutcome store0 extra drainSplit).reqs =
      (runConsumer (producedPieces fills) outcomes 0 store0).reqs := by
  dsimp only [PutObjectModel]
  rw [h]
  exact ⟨rfl, rfl, rfl, rfl⟩

theorem putObjectModel_err_some (fills : List Fill) (outcomes : List (Option GoErr))
    (deleteOutcome : Option GoErr) (store0 : Option (List Nat)) (extra drainSplit : Nat)
    (e : GoErr)
    (h : (runConsumer (producedPieces fills) outcomes 0 store0).err = some e) :
    (PutObjectModel fills outcomes deleteOutcome store0 extra drainSplit).result = some e ∧
    (PutObjectModel fills outcomes deleteOutcome store0 extra drainSplit).store =
      (if deleteOutcome = none then none
        else (runConsumer (producedPieces fills) outcomes 0 store0).store) ∧
    (PutObjectModel fills outcomes deleteOutcome store0 extra drainSplit).deleted = true ∧
    (PutObjectModel fills outcomes deleteOutcome store0 extra drainSplit).reqs =
      (runConsumer (producedPieces fills) outcomes 0 store0).reqs := by
  dsimp only [PutObjectModel]
  rw [h]
  exact ⟨rfl, rfl, rfl, rfl⟩

/-- C1 counterexample: a run in which the second write request fails and the
deferred best-effort `DeleteObject` — a network request on the same broken
transport — fails as well.  `PutObject` returns the write error, the delete
was issued with its outcome discarded (`tripar.go` lines 411-415), yet the
partial object written by the first request still exists afterwards, so
"if it returns an error the object does not exist afterward" is not a
program guarantee. -/
theorem putObject_delete_best_effort_counterexample :
    (PutObjectModel [⟨[1], none⟩, ⟨[2], some .eof⟩] [none, some (.requestErr 0)]
        (some (.requestErr 0)) none 0 0).result =
      some (.wrapped "put object request error" (.requestErr 0)) ∧
    (PutObjectModel [⟨[1], none⟩, ⟨[2], some .eof⟩] [none, some (.requestErr 0)]
        (some (.requestErr 0)) none 0 0).deleted = true ∧
    (PutObjectModel [⟨[1], none⟩, ⟨[2], some .eof⟩] [none, some (.requestErr 0)]
        (some (.requestErr 0)) none 0 0).store = some [1] :=
  ⟨rfl, rfl, rfl⟩

/-- C1 amended: for every source, transport oracle, prior object state and
schedule, on success the object holds exactly the bytes read from the source
up to its natural end; on every error path the deferred best-effort
`DeleteObject` of the target path is issued with its outcome discarded, and
the object does not exist afterwards provided that delete itself succeeded —
a failing delete can leave the partially-written object behind. -/
theorem putObject_all_or_nothing (fills : List Fill) (outcomes : List (Option GoErr))
    (deleteOutcome : Option GoErr) (store0 : Option (List Nat)) (extra drainSplit : Nat)
    (hterm : ∃ f ∈ fills, f.err.isSome) :
    ((PutObjectModel fills outcomes deleteOutcome store0 extra drainSplit).result = none →
      (PutObjectModel fills outcomes deleteOutcome store0 extra drainSplit).store =
        some (sourceBytes fills)) ∧
    ((PutObjectModel fills outcomes deleteOutcome store0 extra drainSplit).result ≠ none →
      (PutObjectModel fills outcomes deleteOutcome store0 extra drainSplit).deleted = true ∧
      (deleteOutcome = none →
        (PutObjectModel fills outcomes deleteOutcome store0 extra drainSplit).store = none)) := by
  have hne : fills ≠ [] := by
    rcases hterm with ⟨f, hf, _⟩
    intro h
    rw [h] at hf
    exact absurd hf (List.not_mem_nil f)
  cases hcerr : (runConsumer (producedPieces fills) outcomes 0 store0).err with
  | none =>
    obtain ⟨hres, hst, hdel, _⟩ :=
      putObjectModel_err_none fills outcomes deleteOutcome store0 extra drainSplit hcerr
    constructor
    · intro _
      rw [hst]
      rcases runConsumer_store_of_success (producedPieces fills) outcomes [] store0
          (Or.inl rfl) hcerr with ⟨hps, _⟩ | hflat
      · exact absurd hps (producedPieces_ne_nil fills hne)
      · simp only [List.length_nil] at hflat
        rw [hflat]
        rfl
    · intro hcontra
      rw [hres] at hcontra
      exact absurd rfl hcontra
  | some e =>
    obtain ⟨hres, hst, hdel, _⟩ :=
      putObjectModel_err_some fills outcomes deleteOutcome store0 extra drainSplit e hcerr
    refine ⟨fun h => Option.noConfusion (hres ▸ h), fun _ => ⟨hdel, fun hd => ?_⟩⟩
    rw [hst, if_pos hd]

/-- Witness for C1 (amended) at the concrete source `[1, 2]` + end-of-stream
with a working transport and a working delete. -/
theorem putObject_all_or_nothing_witness :
    ((PutObjectModel [⟨[1, 2], some .eof⟩] [] none none 0 0).result = none →
      (PutObjectModel [⟨[1, 2], some .eof⟩] [] none none 0 0).store =
        some (sourceBytes [⟨[1, 2], some .eof⟩])) ∧
    ((PutObjectModel [⟨[1, 2], some .eof⟩] [] none none 0 0).result ≠ none →
      (PutObjectModel [⟨[1, 2], some .eof⟩] [] none none 0 0).deleted = true ∧
      ((none : Option GoErr) = none →
        (PutObjectModel [⟨[1, 2], some .eof⟩] [] none none 0 0).store = none)) :=
  putObject_all_or_nothing [⟨[1, 2], some .eof⟩] [] none none 0 0 (by decide)

/-- C4: the chunked download loop runs while `remaining > 0` and otherwise
closes cleanly with no request; over any all-good response sequence its
requests are exactly the spec's chunk plan — each iteration requesting
`[start, start + min(remaining, chunk size) - 1]` and advancing `start` and
decrementing `remaining` by the declared content length; and a response
whose body yields a byte count different from its declared content length
terminates the stream with the copy-mismatch error instead of being
tolerated. -/
theorem chunksLoop_iteration (cs : Int) :
    (∀ (left start : Int) (rs : List ChunkResponse),
      (∀ r ∈ rs, goodResponse r) →
      (chunksLoop cs left start rs).1 =
        specChunkPlan cs (rs.map ChunkResponse.bodyLen) start left) ∧
    (∀ (left start : Int) (r : ChunkResponse) (rs : List ChunkResponse) (rlen : Int),
      0 < left → r.ok = true → r.contentLength = some rlen → r.bodyLen ≠ rlen →
      chunksLoop cs left start (r :: rs) =
        ([⟨start, start + min left cs - 1⟩], .failed (.copyMismatch r.bodyLen rlen))) ∧
    (∀ (left start : Int) (rs : List ChunkResponse), left ≤ 0 →
      chunksLoop cs left start rs = ([], .closed)) := by
  have hmin : ∀ left : Int, (if left > cs then cs else left) = min left cs := by
    intro left
    split <;> omega
  refine ⟨?_, ?_, ?_⟩
  · intro left start rs
    induction rs generalizing left start with
    | nil =>
      intro _
      simp only [chunksLoop, List.map_nil, specChunkPlan]
      split <;> rfl
    | cons r rs ih =>
      intro hgood
      obtain ⟨hok, hcl⟩ := hgood r (List.mem_cons_self r rs)
      simp only [chunksLoop, List.map_cons, specChunkPlan]
      by_cases hleft : left > 0
      · rw [if_pos hleft, if_pos hleft, hok, hcl]
        simp only [if_pos rfl, hmin, eq_self_iff_true, if_true]
        rw [ih (left - r.bodyLen) (start + r.bodyLen)
          (fun g hg => hgood g (List.mem_cons_of_mem r hg))]
      · rw [if_neg hleft, if_neg (by omega : ¬(0 : Int) < left)]
  · intro left start r rs rlen hleft hok hcl hne
    simp only [chunksLoop]
    rw [if_pos hleft, hok, hcl]
    simp only [if_neg hne, hmin, eq_self_iff_true, if_true]
  · intro left start rs hleft
    cases rs with
    | nil =>
      simp only [chunksLoop]
      rw [if_neg (by omega)]
    | cons r rs =>
      simp only [chunksLoop]
      rw [if_neg (by omega)]

/-- Witness for C4 at chunk size 2, a 5-byte remainder served by three good
responses, a mismatching first response, and an exhausted span. -/
theorem chunksLoop_iteration_witness :
    (chunksLoop 2 5 0 [⟨true, some 2, 2⟩, ⟨true, some 2, 2⟩, ⟨true, some 1, 1⟩]).1 =
      specChunkPlan 2 [2, 2, 1] 0 5 ∧
    chunksLoop 2 5 0 [⟨true, some 2, 3⟩] =
      ([⟨0, 1⟩], .failed (.copyMismatch 3 2)) ∧
    chunksLoop 2 0 7 [⟨true, some 2, 2⟩] = ([], .closed) :=
  ⟨(chunksLoop_iteration 2).1 5 0 _ (by decide),
    (chunksLoop_iteration 2).2.1 5 0 ⟨true, some 2, 3⟩ [] 2 (by decide) rfl rfl (by decide),
    (chunksLoop_iteration 2).2.2 0 7 _ (by decide)⟩

theorem producedPieces_clean_append (pre : List Fill) :
    ∀ (f : Fill) (post : List Fill), (∀ g ∈ pre, g.err = none) → f.err ≠ none →
    producedPieces (pre ++ f :: post) = pre ++ [f] := by
  induction pre with
  | nil =>
    intro f post _ hf
    simp only [List.nil_append, producedPieces, if_neg hf]
  | cons p pres ih =>
    intro f post hpre hf
    simp only [List.cons_append, producedPieces,
      if_pos (hpre p (List.mem_cons_self p pres)), List.append_eq]
    rw [ih f post (fun g hg => hpre g (List.mem_cons_of_mem p hg)) hf]

theorem runConsumer_clean_append (ps : List Fill) :
    ∀ (f : Fill) (w : Nat) (store : Option (List Nat)),
    (∀ g ∈ ps, g.err = none) →
    (runConsumer (ps ++ [f]) [] w store).err =
      (if f.err = none ∨ f.err = some .eof then none else f.err) ∧
    (runConsumer (ps ++ [f]) [] w store).reqs.length =
      ps.length + (if f.err = none ∨ f.err = some .eof then 1 else 0) := by
  induction ps with
  | nil =>
    intro f w store _
    by_cases hgood : f.err = none ∨ f.err = some .eof
    · have hcond : ¬(f.err ≠ none ∧ f.err ≠ some .eof) := by tauto
      rw [if_pos hgood, if_pos hgood]
      simp [runConsumer, if_neg hcond]
    · have hcond : f.err ≠ none ∧ f.err ≠ some .eof := by tauto
      rw [if_neg hgood, if_neg hgood]
      simp [runConsumer, if_pos hcond]
  | cons p ps ih =>
    intro f w store hclean
    have hp : p.err = none := hclean p (List.mem_cons_self p ps)
    have hcond : ¬(p.err ≠ none ∧ p.err ≠ some .eof) := by
      rw [hp]
      tauto
    simp only [List.cons_append, runConsumer, if_neg hcond, List.append_eq,
      List.headD_nil, List.tail_nil]
    have := ih f (w + p.data.length)
      (if w = 0 then some p.data else some (store.getD [] ++ p.data))
      (fun g hg => hclean g (List.mem_cons_of_mem p hg))
    refine ⟨this.1, ?_⟩
    simp only [List.length_cons, this.2]
    omega

/-- C6 counterexample: a source whose final fill is the clean end-of-stream
marker with zero trailing bytes (one data byte, then `(0, EOF)`), as a reader
of exactly one buffer's worth produces.  The claim says the EOF piece is
written only if it carries trailing data; the code writes it anyway — a
second, zero-length append request with the degenerate range `bytes=1-0` is
issued — and then returns success. -/
theorem putObject_eof_piece_counterexample :
    (PutObjectModel [⟨[7], none⟩, ⟨[], some .eof⟩] [] none none 0 0).result = none ∧
    (PutObjectModel [⟨[7], none⟩, ⟨[], some .eof⟩] [] none none 0 0).reqs.map
        (fun r => (r.method, r.range, r.len)) =
      [("PUT", none, 1), ("POST", some ((1 : Int), (0 : Int)), 0)] := by
  exact ⟨rfl, rfl⟩

/-- C6 amended: with a working transport, a piece whose terminal condition is
the clean end-of-stream marker is always written — even with zero trailing
data, as a zero-length request — and `PutObject` then returns success, while
a piece carrying any other terminal error (such as `ErrUnexpectedEOF`) makes
`PutObject` return exactly that error with no request issued for that piece;
the two terminal conditions are never conflated. -/
theorem putObject_terminal_conditions (pre : List Fill) (f : Fill) (post : List Fill)
    (deleteOutcome : Option GoErr) (store0 : Option (List Nat)) (extra drainSplit : Nat)
    (hpre : ∀ g ∈ pre, g.err = none) :
    (f.err = some .eof →
      (PutObjectModel (pre ++ f :: post) [] deleteOutcome store0 extra drainSplit).result =
        none ∧
      (PutObjectModel (pre ++ f :: post) [] deleteOutcome store0 extra drainSplit).reqs.length =
        pre.length + 1) ∧
    (∀ e, f.err = some e → e ≠ .eof →
      (PutObjectModel (pre ++ f :: post) [] deleteOutcome store0 extra drainSplit).result =
        some e ∧
      (PutObjectModel (pre ++ f :: post) [] deleteOutcome store0 extra drainSplit).reqs.length =
        pre.length) := by
  constructor
  · intro heof
    have hprod := producedPieces_clean_append pre f post hpre (by rw [heof]; simp)
    have hrun := runConsumer_clean_append pre f 0 store0 hpre
    rw [if_pos (Or.inr heof), if_pos (Or.inr heof)] at hrun
    have hcerr : (runConsumer (producedPieces (pre ++ f :: post)) [] 0 store0).err = none := by
      rw [hprod]
      exact hrun.1
    obtain ⟨hres, _, _, hreqs⟩ :=
      putObjectModel_err_none (pre ++ f :: post) [] deleteOutcome store0 extra drainSplit hcerr
    refine ⟨hres, ?_⟩
    rw [hreqs, hprod, hrun.2]
  · intro e he hne
    have hprod := producedPieces_clean_append pre f post hpre (by rw [he]; simp)
    have hrun := runConsumer_clean_append pre f 0 store0 hpre
    have hbad : ¬(f.err = none ∨ f.err = some .eof) := by
      rw [he]
      simp only [Option.some.injEq]
      push_neg
      exact ⟨fun h => Option.noConfusion h, hne⟩
    rw [if_neg hbad, if_neg hbad] at hrun
    have hcerr : (runConsumer (producedPieces (pre ++ f :: post)) [] 0 store0).err = some e := by
      rw [hprod, hrun.1, he]
    obtain ⟨hres, _, _, hreqs⟩ :=
      putObjectModel_err_some (pre ++ f :: post) [] deleteOutcome store0 extra drainSplit e hcerr
    refine ⟨hres, ?_⟩
    rw [hreqs, hprod, hrun.2]
    omega

/-- Witness for C6 (amended) at concrete sources: one data piece then a
clean EOF piece, and one data piece then an unexpected-truncation piece. -/
theorem putObject_terminal_conditions_witness :
    ((PutObjectModel [⟨[1], none⟩, ⟨[2], some .eof⟩] [] none none 0 0).result = none ∧
      (PutObjectModel [⟨[1], none⟩, ⟨[2], some .eof⟩] [] none none 0 0).reqs.length = 1 + 1) ∧
    ((PutObjectModel [⟨[1], none⟩, ⟨[2], some .unexpectedEOF⟩] [] none none 0 0).result =
        some .unexpectedEOF ∧
      (PutObjectModel [⟨[1], none⟩, ⟨[2], some .unexpectedEOF⟩] [] none none 0 0).reqs.length =
        1) :=
  ⟨by
    have h := (putObject_terminal_conditions [⟨[1], none⟩] ⟨[2], some .eof⟩ [] none none 0 0
      (by decide)).1 rfl
    simpa using h,
   by
    have h := (putObject_terminal_conditions [⟨[1], none⟩] ⟨[2], some .unexpectedEOF⟩ []
      none none 0 0 (by decide)).2 .unexpectedEOF rfl (by decide)
    simpa using h⟩

theorem putObjectModel_reqs (fills : List Fill) (outcomes : List (Option GoErr))
    (deleteOutcome : Option GoErr) (store0 : Option (List Nat)) (extra drainSplit : Nat) :
    (PutObjectModel fills outcomes deleteOutcome store0 extra drainSplit).reqs =
      (runConsumer (producedPieces fills) outcomes 0 store0).reqs := by
  dsimp only [PutObjectModel]
  cases (runConsumer (producedPieces fills) outcomes 0 store0).err <;> rfl

theorem runConsumer_chained (ps : List Fill) :
    ∀ (outcomes : List (Option GoErr)) (w : Nat) (store : Option (List Nat)),
    chainedFrom w (runConsumer ps outcomes w store).reqs = true := by
  induction ps with
  | nil =>
    intro outcomes w store
    rfl
  | cons p ps ih =>
    intro outcomes w store
    simp only [runConsumer]
    by_cases hbad : p.err ≠ none ∧ p.err ≠ some .eof
    · rw [if_pos hbad]
      rfl
    · rw [if_neg hbad]
      cases ho : outcomes.headD none with
      | some e =>
        by_cases hw : w = 0
        · subst hw
          simp [chainedFrom]
        · simp [chainedFrom, hw]
      | none =>
        have hrest := ih outcomes.tail (w + p.data.length)
          (if w = 0 then some p.data else some (store.getD [] ++ p.data))
        by_cases hw : w = 0
        · subst hw
          simp only [Nat.zero_add, eq_self_iff_true, if_true] at hrest
          simp [chainedFrom, hrest]
        · rw [if_neg hw] at hrest
          simp [chainedFrom, hw, hrest]

theorem chained_head_offset (w : Nat) (r : WriteReq) (rs : List WriteReq)
    (h : chainedFrom w (r :: rs) = true) : r.offset = (w : Int) := by
  simp only [chainedFrom, Bool.and_eq_true, decide_eq_true_eq] at h
  obtain ⟨⟨hcond, _⟩, _⟩ := h
  by_cases hw : w = 0
  · rw [if_pos hw] at hcond
    rw [decide_eq_true_eq] at hcond
    unfold WriteReq.offset
    rw [hcond.2, hw]
    rfl
  · rw [if_neg hw] at hcond
    rw [decide_eq_true_eq] at hcond
    unfold WriteReq.offset
    rw [hcond.2]

theorem chained_strictlyIncreasing (reqs : List WriteReq) :
    ∀ w : Nat, chainedFrom w reqs = true → (∀ r ∈ reqs, 0 < r.len) →
    strictlyIncreasing reqs = true := by
  induction reqs with
  | nil =>
    intro w _ _
    rfl
  | cons r rs ih =>
    intro w h hpos
    cases rs with
    | nil => rfl
    | cons s rest =>
      have hr : r.offset = (w : Int) := chained_head_offset w r (s :: rest) h
      rw [chainedFrom, Bool.and_eq_true] at h
      obtain ⟨_, hrest⟩ := h
      have hs := chained_head_offset (w + r.len) s rest hrest
      simp only [strictlyIncreasing, Bool.and_eq_true, decide_eq_true_eq]
      constructor
      · rw [hr, hs]
        have : 0 < r.len := hpos r (List.mem_cons_self r (s :: rest))
        push_cast
        omega
      · exact ih (w + r.len) hrest fun g hg => hpos g (List.mem_cons_of_mem r hg)

theorem sourceFills_replicate_step (n b a : Nat) (h0 : 0 < b) (hlt : b < n) :
    sourceFills (List.replicate n a) b =
      ⟨List.replicate b a, none⟩ :: sourceFills (List.replicate (n - b) a) b := by
  rw [sourceFills, if_neg (by simp only [List.length_replicate]; omega)]
  congr 1
  · congr 1
    simp [List.take_replicate]
    omega
  · congr 1
    simp [List.drop_replicate]

theorem sourceFills_replicate_last (n b a : Nat) (h : n ≤ b) :
    sourceFills (List.replicate n a) b = [⟨List.replicate n a, some .eof⟩] := by
  rw [sourceFills, if_pos (Or.inr (by simp only [List.length_replicate]; exact h))]

theorem sourceFills_concrete :
    sourceFills (List.replicate (4 * 1024 * 1024 + 17) (0 : Nat)) (1024 * 1024) =
      [⟨List.replicate 1048576 0, none⟩, ⟨List.replicate 1048576 0, none⟩,
       ⟨List.replicate 1048576 0, none⟩, ⟨List.replicate 1048576 0, none⟩,
       ⟨List.replicate 17 0, some .eof⟩] := by
  norm_num
  rw [sourceFills_replicate_step 4194321 1048576 0 (by norm_num) (by norm_num)]
  norm_num
  rw [sourceFills_replicate_step 3145745 1048576 0 (by norm_num) (by norm_num)]
  norm_num
  rw [sourceFills_replicate_step 2097169 1048576 0 (by norm_num) (by norm_num)]
  norm_num
  rw [sourceFills_replicate_step 1048593 1048576 0 (by norm_num) (by norm_num)]
  norm_num
  rw [sourceFills_replicate_last 17 1048576 0 (by norm_num)]

theorem putObject_five_pieces (d1 d2 d3 d4 d5 : List Nat) (deleteOutcome : Option GoErr)
    (h1 : d1.length = 1048576) (h2 : d2.length = 1048576) (h3 : d3.length = 1048576)
    (h4 : d4.length = 1048576) (h5 : d5.length = 17) :
    (PutObjectModel [⟨d1, none⟩, ⟨d2, none⟩, ⟨d3, none⟩, ⟨d4, none⟩, ⟨d5, some .eof⟩]
        [] deleteOutcome none 0 0).result = none ∧
    (PutObjectModel [⟨d1, none⟩, ⟨d2, none⟩, ⟨d3, none⟩, ⟨d4, none⟩, ⟨d5, some .eof⟩]
        [] deleteOutcome none 0 0).reqs.map (fun r => (r.method, r.range, r.len)) =
      [("PUT", none, 1048576),
       ("POST", some ((1048576 : Int), (2097151 : Int)), 1048576),
       ("POST", some ((2097152 : Int), (3145727 : Int)), 1048576),
       ("POST", some ((3145728 : Int), (4194303 : Int)), 1048576),
       ("POST", some ((4194304 : Int), (4194320 : Int)), 17)] ∧
    (PutObjectModel [⟨d1, none⟩, ⟨d2, none⟩, ⟨d3, none⟩, ⟨d4, none⟩, ⟨d5, some .eof⟩]
        [] deleteOutcome none 0 0).store.map List.length = some (4 * 1024 * 1024 + 17) := by
  refine ⟨?_, ?_, ?_⟩ <;>
    simp [PutObjectModel, producedPieces, runConsumer, h1, h2, h3, h4, h5]

/-- C5: every upload's first write request is a create-or-replace `PUT` and
each subsequent request an append `POST` with `Range` header
`bytes=written-(written+read-1)` where `written` is the sum of the lengths of
all previous requests (`chainedFrom 0`), the model issuing requests strictly
sequentially — the next request exists only after the previous one completed,
as the consumer is a single sequential loop; whenever every request carries
data the request offsets are strictly increasing; and the concrete scenario:
a `4*1024*1024+17`-byte source with 1MB buffers issues exactly 5 write
requests (4 full and 1 partial, in increasing offset order) and leaves an
object of exactly `4*1024*1024+17` bytes. -/
theorem putObject_sequential_offsets :
    (∀ (fills : List Fill) (outcomes : List (Option GoErr)) (deleteOutcome : Option GoErr)
      (store0 : Option (List Nat)) (extra drainSplit : Nat),
      chainedFrom 0
        (PutObjectModel fills outcomes deleteOutcome store0 extra drainSplit).reqs = true) ∧
    (∀ (fills : List Fill) (outcomes : List (Option GoErr)) (deleteOutcome : Option GoErr)
      (store0 : Option (List Nat)) (extra drainSplit : Nat),
      (∀ r ∈ (PutObjectModel fills outcomes deleteOutcome store0 extra drainSplit).reqs,
        0 < r.len) →
      strictlyIncreasing
        (PutObjectModel fills outcomes deleteOutcome store0 extra drainSplit).reqs = true) ∧
    ((PutObjectModel (sourceFills (List.replicate (4 * 1024 * 1024 + 17) 0) (1024 * 1024))
        [] none none 0 0).result = none ∧
      (PutObjectModel (sourceFills (List.replicate (4 * 1024 * 1024 + 17) 0) (1024 * 1024))
        [] none none 0 0).reqs.map (fun r => (r.method, r.range, r.len)) =
        [("PUT", none, 1048576),
         ("POST", some ((1048576 : Int), (2097151 : Int)), 1048576),
         ("POST", some ((2097152 : Int), (3145727 : Int)), 1048576),
         ("POST", some ((3145728 : Int), (4194303 : Int)), 1048576),
         ("POST", some ((4194304 : Int), (4194320 : Int)), 17)] ∧
      (PutObjectModel (sourceFills (List.replicate (4 * 1024 * 1024 + 17) 0) (1024 * 1024))
        [] none none 0 0).store.map List.length = some (4 * 1024 * 1024 + 17)) := by
  have hchain : ∀ (fills : List Fill) (outcomes : List (Option GoErr))
      (deleteOutcome : Option GoErr) (store0 : Option (List Nat)) (extra drainSplit : Nat),
      chainedFrom 0
        (PutObjectModel fills outcomes deleteOutcome store0 extra drainSplit).reqs = true := by
    intro fills outcomes deleteOutcome store0 extra drainSplit
    rw [putObjectModel_reqs]
    exact runConsumer_chained (producedPieces fills) outcomes 0 store0
  refine ⟨hchain, ?_, ?_⟩
  · intro fills outcomes deleteOutcome store0 extra drainSplit hpos
    exact chained_strictlyIncreasing _ 0
      (hchain fills outcomes deleteOutcome store0 extra drainSplit) hpos
  · rw [sourceFills_concrete]
    exact putObject_five_pieces (List.replicate 1048576 0) (List.replicate 1048576 0)
      (List.replicate 1048576 0) (List.replicate 1048576 0) (List.replicate 17 0) none
      (List.length_replicate 1048576 0) (List.length_replicate 1048576 0)
      (List.length_replicate 1048576 0) (List.length_replicate 1048576 0)
      (List.length_replicate 17 0)

/-- Witness for C5 at a concrete two-piece upload with data in every piece. -/
theorem putObject_sequential_offsets_witness :
    strictlyIncreasing
      (PutObjectModel [⟨[1], none⟩, ⟨[2, 3], some .eof⟩] [] none none 0 0).reqs = true :=
  putObject_sequential_offsets.2.1 [⟨[1], none⟩, ⟨[2, 3], some .eof⟩] [] none none 0 0
    (by decide)

end Triparclient
